import Mathlib

/-!
Verification development for the WebShopBackend product service.

The repository contains three variants of the same HTTP product API:
* `DbV1` — the Firestore-backed Express app in src/server.js;
* `DbV2` — the Firestore-backed Express app embedded in src/unnamed/part_000
  (adds pagination and sorting to the list endpoint, and returns a pair of
  documents from the median endpoint when the collection size is even);
* `Mem`  — the plain node http server in src/unnamed/part_001 that keeps the
  products in an in-memory array.

The Firestore collection is modelled as a list of documents in the store
enumeration order (Firestore enumerates by document key).  Queries that the
handlers issue (orderBy, offset, limit, point get, set, delete, batch delete)
are modelled as the corresponding pure list operations.  JavaScript values
that the POST handlers inspect for truthiness are modelled by `JSVal`.
-/

/-- A JavaScript value as far as the POST validation logic observes it:
undefined, null, a string, an integer number, or a boolean. -/
inductive JSVal where
  | undef
  | nullV
  | str (s : String)
  | num (n : Int)
  | boolV (b : Bool)
deriving DecidableEq, Repr

/-- JavaScript falsiness: undefined, null, the empty string, 0 and false are
falsy; every other value of the modelled fragment is truthy. -/
def JSVal.falsy : JSVal → Bool
  | .undef => true
  | .nullV => true
  | .str s => decide (s = "")
  | .num n => decide (n = 0)
  | .boolV b => !b

/-- JavaScript truthiness, the negation of `JSVal.falsy`. -/
def JSVal.truthy (v : JSVal) : Bool := !v.falsy

/-- JavaScript `v.toString()` for the modelled value fragment
(used by the POST handlers as the document key: `id.toString()`). -/
def JSVal.toStr : JSVal → String
  | .undef => "undefined"
  | .nullV => "null"
  | .str s => s
  | .num n => toString n
  | .boolV b => if b then "true" else "false"

/-- A well-formed product document of the Firestore `products` collection:
its document key, and the `name` and `price` fields used by the read and
aggregate endpoints (the spec types `price` as a number; it is modelled as an
integer, only its ordering matters to the handlers). -/
structure DbDoc where
  key : String
  name : String
  price : Int
deriving DecidableEq, Repr

/-- Placeholder document; every  use of `List.getD` below is at an index that
is in range, so the default is never produced. -/
def dummyDoc : DbDoc := ⟨"", "", 0⟩

/-- The sort field of the list endpoint: `sortField` is either "name" or
"price" (anything other than "price" is treated as "name" by the handler). -/
inductive SortField where
  | name
  | price
deriving DecidableEq, Repr

/-- The sort direction of the list endpoint: `sort` is "asc" unless it is
exactly "desc". -/
inductive SortDir where
  | asc
  | desc
deriving DecidableEq, Repr

/-- The comparison used by the Firestore `orderBy(sortField, sortDirection)`
query, restricted to well-formed documents. -/
def sortLe (f : SortField) (d : SortDir) (a b : DbDoc) : Bool :=
  match f, d with
  | .name, .asc => decide (a.name ≤ b.name)
  | .name, .desc => decide (b.name ≤ a.name)
  | .price, .asc => decide (a.price ≤ b.price)
  | .price, .desc => decide (b.price ≤ a.price)

/-- Firestore `collection.orderBy(f, d).get()`: the documents of the store
sorted by the requested field and direction (ties keep a deterministic
order). -/
def orderBy (f : SortField) (d : SortDir) (store : List DbDoc) : List DbDoc :=
  store.mergeSort (sortLe f d)

namespace Db

/-- A JSON response of the Firestore-backed read endpoints, together with the
HTTP status it is sent with (see `Db.status`). -/
inductive ReadResponse where
  | ok (p : DbDoc)
  | okPair (a b : DbDoc)
  | okList (l : List DbDoc)
  | okPage (totalCount pageIndex pageSize : Nat) (products : List DbDoc)
  | okCount (n : Nat)
  | okMessage (m : String)
  | notFound (error : String)
deriving DecidableEq, Repr

/-- HTTP status code of a response: 404 for the not-found error payload,
200 otherwise. -/
def status : ReadResponse → Nat
  | .notFound _ => 404
  | _ => 200

/-- GET /products/expensivest (identical in src/server.js and part_000):
order by price descending, limit 1; 404 if the snapshot is empty. -/
def getExpensivest (store : List DbDoc) : ReadResponse :=
  match (orderBy .price .desc store).take 1 with
  | [] => .notFound "No products found"
  | p :: _ => .ok p

/-- GET /products/cheapest (identical in src/server.js and part_000):
order by price ascending, limit 1; 404 if the snapshot is empty. -/
def getCheapest (store : List DbDoc) : ReadResponse :=
  match (orderBy .price .asc store).take 1 with
  | [] => .notFound "No products found"
  | p :: _ => .ok p

/-- GET /products/count (identical in both Firestore variants):
the snapshot size of the whole collection. -/
def getCount (store : List DbDoc) : ReadResponse :=
  .okCount store.length

/-- GET /products/:id (identical in both Firestore variants): point lookup of
the document key; 404 when the document does not exist. -/
def getById (store : List DbDoc) (key : String) : ReadResponse :=
  match store.find? (fun d => decide (d.key = key)) with
  | none => .notFound "Product not found"
  | some d => .ok d

/-- DELETE /products/:id (identical in both Firestore variants): a point get
checks existence first; if the document exists it is deleted by key. -/
def deleteById (store : List DbDoc) (key : String) : ReadResponse × List DbDoc :=
  if store.any (fun d => decide (d.key = key)) then
    (.okMessage "Product deleted", store.filter (fun d => !decide (d.key = key)))
  else
    (.notFound "Product not found", store)

/-- DELETE /products (identical in both Firestore variants): every document of
the snapshot is deleted in one batch, so the collection is left empty. -/
def deleteAll (_store : List DbDoc) : ReadResponse × List DbDoc :=
  (.okMessage "All products deleted", [])

end Db

namespace DbV1

/-- GET /products of src/server.js: the whole snapshot, in store enumeration
order, with no pagination. -/
def getProducts (store : List DbDoc) : Db.ReadResponse :=
  .okList store

/-- GET /products/median of src/server.js: fetch all documents ordered by
price ascending; 404 on the empty collection; for odd length return the
element at index length / 2; for EVEN length this variant returns the single
element at index length / 2 - 1 (it does not return a pair). -/
def getMedian (store : List DbDoc) : Db.ReadResponse :=
  let products := orderBy .price .asc store
  if products.length = 0 then .notFound "No products found"
  else
    let mid := products.length / 2
    if products.length % 2 = 1 then .ok (products.getD mid dummyDoc)
    else .ok (products.getD (mid - 1) dummyDoc)

end DbV1

namespace DbV2

/-- GET /products of part_000: paginated and sorted listing.  The handler
computes offset = (pageIndex - 1) * pageSize, reads the total count from a
full snapshot, then reads the page ordered by the requested field and
direction, skipping offset documents and limited to pageSize.  The query
parameters default to pageIndex 1 and pageSize 10 when absent. -/
def getProducts (store : List DbDoc) (pageIndex pageSize : Nat)
    (f : SortField) (d : SortDir) : Db.ReadResponse :=
  let offset := (pageIndex - 1) * pageSize
  let totalCount := store.length
  let products := ((orderBy f d store).drop offset).take pageSize
  .okPage totalCount pageIndex pageSize products

/-- GET /products/median of part_000: fetch all documents ordered by price
ascending; 404 on the empty collection; for odd length return the element at
index length / 2; for even length return the two-element array of the
elements at indices length / 2 - 1 and length / 2. -/
def getMedian (store : List DbDoc) : Db.ReadResponse :=
  let products := orderBy .price .asc store
  if products.length = 0 then .notFound "No products found"
  else
    let mid := products.length / 2
    if products.length % 2 = 1 then .ok (products.getD mid dummyDoc)
    else .okPair (products.getD (mid - 1) dummyDoc) (products.getD mid dummyDoc)

end DbV2

/-- The JSON body of a POST /products request as the Firestore-backed
handlers destructure it: the fields id, name and price (absent fields are
`JSVal.undef`). -/
structure PostBody where
  id : JSVal
  name : JSVal
  price : JSVal
deriving DecidableEq, Repr

/-- Firestore `collection.doc(key).set(data)`: create-or-replace the document
stored under `key`. -/
def dbSet (store : List (String × PostBody)) (key : String) (data : PostBody) :
    List (String × PostBody) :=
  if store.any (fun e => decide (e.1 = key)) then
    store.map (fun e => if e.1 = key then (key, data) else e)
  else
    store ++ [(key, data)]

/-- Response of the Firestore-backed POST handlers: 201 echoing the stored
fields, or 400 with an error payload. -/
inductive PostResponse where
  | created (id name price : JSVal)
  | badRequest (error : String)
deriving DecidableEq, Repr

namespace DbV1

/-- POST /products of src/server.js: reject when id or name is falsy,
otherwise upsert the document keyed by `id.toString()` with the full given
fields and respond 201. -/
def postProducts (store : List (String × PostBody)) (body : PostBody) :
    PostResponse × List (String × PostBody) :=
  if body.id.falsy || body.name.falsy then
    (.badRequest "id and name required", store)
  else
    (.created body.id body.name body.price, dbSet store body.id.toStr body)

end DbV1

namespace DbV2

/-- POST /products of part_000: identical to the src/server.js handler except
for the wording of the validation error message. -/
def postProducts (store : List (String × PostBody)) (body : PostBody) :
    PostResponse × List (String × PostBody) :=
  if body.id.falsy || body.name.falsy then
    (.badRequest "id and name are required", store)
  else
    (.created body.id body.name body.price, dbSet store body.id.toStr body)

end DbV2

/-- GET requests of the Firestore-backed apps, over the product collection
(both variants of the list and median endpoints are included). -/
inductive DbGet where
  | listV1
  | listV2 (pageIndex pageSize : Nat) (f : SortField) (d : SortDir)
  | byId (key : String)
  | countAll
  | expensivest
  | cheapest
  | medianV1
  | medianV2
deriving DecidableEq, Repr

/-- Dispatch of the Firestore-backed GET routes.  The handlers issue only
read queries against the store, so each returns the store it was given. -/
def Db.handleGet : DbGet → List DbDoc → Db.ReadResponse × List DbDoc
  | .listV1, store => (DbV1.getProducts store, store)
  | .listV2 pi ps f d, store => (DbV2.getProducts store pi ps f d, store)
  | .byId key, store => (Db.getById store key, store)
  | .countAll, store => (Db.getCount store, store)
  | .expensivest, store => (Db.getExpensivest store, store)
  | .cheapest, store => (Db.getCheapest store, store)
  | .medianV1, store => (DbV1.getMedian store, store)
  | .medianV2, store => (DbV2.getMedian store, store)

/-- Character-level helper of `jsTrim`: drop leading and trailing whitespace
from a list of characters. -/
def trimChars (l : List Char) : List Char :=
  ((l.dropWhile Char.isWhitespace).reverse.dropWhile Char.isWhitespace).reverse

/-- JavaScript `String.prototype.trim()`: the string with leading and
trailing whitespace removed. -/
def jsTrim (s : String) : String := String.mk (trimChars s.data)

namespace Mem

/-- A product object of the in-memory array in part_001.  JavaScript objects
may lack any of the fields, so each field is optional (an absent field reads
as undefined). -/
structure MemProduct where
  id : Option Int
  name : Option String
  price : Option Int
deriving DecidableEq, Repr

/-- Placeholder product for `List.getD` calls whose index is in range. -/
def dummyProduct : MemProduct := ⟨none, none, none⟩

/-- A JSON response of the in-memory server, with the status it is written
with: 200 for the ok responses, 201 for created, 404 for the not-found
payloads, 400 for badRequest. -/
inductive MemResponse where
  | ok (p : MemProduct)
  | okPair (a b : MemProduct)
  | okList (l : List MemProduct)
  | okCount (n : Nat)
  | created (p : MemProduct)
  | okMessage (m : String)
  | notFoundMsg (m : String)
  | notFoundErr (e : String)
  | badRequest (m : String)
deriving DecidableEq, Repr

/-- What a handler of the in-memory server does to the connection: write a
response, return without writing one, or throw an uncaught exception. -/
inductive Outcome where
  | responded (r : MemResponse)
  | noResponse
  | threw (e : String)
deriving DecidableEq, Repr

/-- JavaScript `Array.prototype.reduce` with no initial value: throws a
TypeError on the empty array, otherwise folds the callback over the tail
starting from the head. -/
def jsReduce (f : α → α → α) : List α → Except String α
  | [] => .error "TypeError: Reduce of empty array with no initial value"
  | x :: xs => .ok (xs.foldl f x)

/-- JavaScript strict greater-than on possibly-undefined numbers: any
comparison involving undefined is false. -/
def jsGt : Option Int → Option Int → Bool
  | some a, some b => decide (b < a)
  | _, _ => false

/-- JavaScript strict less-than on possibly-undefined numbers: any comparison
involving undefined is false. -/
def jsLt : Option Int → Option Int → Bool
  | some a, some b => decide (a < b)
  | _, _ => false

/-- Truthiness of a JavaScript object value: an object is always truthy. -/
def objTruthy (_p : MemProduct) : Bool := true

/-- GET /products of part_001: write the whole array. -/
def getProductsHandler (products : List MemProduct) :
    Outcome × List MemProduct :=
  (.responded (.okList products), products)

/-- GET /products/:id of part_001: find by strict equality of the id field
against the parsed path id; 404 message payload when absent. -/
def getProductByIdHandler (products : List MemProduct) (id : Int) :
    Outcome × List MemProduct :=
  match products.find? (fun product => decide (product.id = some id)) with
  | some product => (.responded (.ok product), products)
  | none => (.responded (.notFoundMsg "Product not found"), products)

/-- GET /products/expensivest of part_001: reduce the array (no initial
value) keeping the product with the greater price, then branch on the
truthiness of the result.  On the empty array the reduce itself throws. -/
def getExpensivestProduct (products : List MemProduct) :
    Outcome × List MemProduct :=
  match jsReduce
      (fun maxProduct product =>
        if jsGt product.price maxProduct.price then product else maxProduct)
      products with
  | .error e => (.threw e, products)
  | .ok expensivestProduct =>
    if objTruthy expensivestProduct then
      (.responded (.ok expensivestProduct), products)
    else
      (.responded (.notFoundMsg "Product not found"), products)

/-- GET /products/cheapest of part_001: reduce the array (no initial value)
keeping the product with the smaller price, then branch on the truthiness of
the result.  On the empty array the reduce itself throws. -/
def getCheapestProduct (products : List MemProduct) :
    Outcome × List MemProduct :=
  match jsReduce
      (fun minProduct product =>
        if jsLt product.price minProduct.price then product else minProduct)
      products with
  | .error e => (.threw e, products)
  | .ok cheapestProduct =>
    if objTruthy cheapestProduct then
      (.responded (.ok cheapestProduct), products)
    else
      (.responded (.notFoundMsg "Product not found"), products)

/-- The comparator of the sort in getMedianProduct of part_001: the source
sorts a copy with the callback a.id - b.id, i.e. ascending by the id field;
when an id is absent the subtraction is NaN and the engine order is
unspecified, modelled here as accepting either order. -/
def idSortLe (a b : MemProduct) : Bool :=
  match a.id, b.id with
  | some x, some y => decide (x ≤ y)
  | _, _ => true

/-- GET /products/median of part_001: on the empty array the handler returns
null WITHOUT writing a response; otherwise it sorts a COPY of the array by
the id field (not by price) and writes the middle element for odd length or
the two middle elements for even length. -/
def getMedianProduct (products : List MemProduct) :
    Outcome × List MemProduct :=
  if products.length = 0 then (.noResponse, products)
  else
    let sorted := products.mergeSort idSortLe
    let mid := sorted.length / 2
    if sorted.length % 2 ≠ 0 then
      (.responded (.ok (sorted.getD mid dummyProduct)), products)
    else
      (.responded (.okPair (sorted.getD (mid - 1) dummyProduct)
        (sorted.getD mid dummyProduct)), products)

/-- DELETE /products/:id of part_001: find the index of the product whose id
field equals the parsed path id; 404 error payload when absent, otherwise
splice that index out and confirm. -/
def deleteProductByIdHandler (products : List MemProduct) (id : Int) :
    Outcome × List MemProduct :=
  match products.findIdx? (fun u => decide (u.id = some id)) with
  | none => (.responded (.notFoundErr "Product not found"), products)
  | some index =>
    (.responded (.okMessage
      ("Product with id: \x27" ++ toString id ++ "\x27 deleted")),
     products.eraseIdx index)

/-- POST /products of part_001: the parsed body is checked only as
`!newProduct || newProduct.name.trim() === ""`.  A falsy body (modelled as
`none`) or a name that trims to the empty string is rejected with 400; a body
whose name field is ABSENT makes `name.trim()` throw a TypeError; otherwise
the object is pushed onto the array unchecked (in particular no id check). -/
def createProductHandler (products : List MemProduct)
    (newProduct : Option MemProduct) : Outcome × List MemProduct :=
  match newProduct with
  | none => (.responded (.badRequest "Name is required"), products)
  | some p =>
    match p.name with
    | none =>
      (.threw "TypeError: Cannot read properties of undefined (reading \x27trim\x27)",
       products)
    | some n =>
      if jsTrim n = "" then (.responded (.badRequest "Name is required"), products)
      else (.responded (.created p), products ++ [p])

/-- DELETE /products of part_001: the router replaces the array with the
empty array and confirms. -/
def deleteAllProducts (_products : List MemProduct) :
    Outcome × List MemProduct :=
  (.responded (.okMessage "All products deleted"), [])

/-- GET requests of the in-memory server. -/
inductive MemGet where
  | listAll
  | byId (id : Int)
  | countAll
  | expensivest
  | cheapest
  | median
deriving DecidableEq, Repr

/-- Dispatch of the in-memory GET routes, as the router in part_001 wires
them (the count route answers inline with the array length). -/
def handleGet : MemGet → List MemProduct → Outcome × List MemProduct
  | .listAll, products => getProductsHandler products
  | .byId i, products => getProductByIdHandler products i
  | .countAll, products => (.responded (.okCount products.length), products)
  | .expensivest, products => getExpensivestProduct products
  | .cheapest, products => getCheapestProduct products
  | .median, products => getMedianProduct products

end Mem

/-- Concrete document fixtures used by witnesses and counterexamples.  Their
keys, names and prices are all in the same ascending order, so lists of them
written in this order are already sorted under every ascending comparator. -/
def docA : DbDoc := ⟨"a", "Apple", 10⟩

/-- Second fixture document, see docA. -/
def docB : DbDoc := ⟨"b", "Orange", 20⟩

/-- Third fixture document, see docA. -/
def docC : DbDoc := ⟨"c", "Pear", 30⟩

/-- A POST body whose name is a single space: non-empty, hence truthy, but
empty after trimming. -/
def wsBody : PostBody := ⟨.str "p1", .str " ", .num 5⟩

/-- A POST body used by the upsert witness: id "1", name "Apple" and the
given price. -/
def appleBody (price : Int) : PostBody := ⟨.str "1", .str "Apple", .num price⟩

/-- In-memory fixture product with id 1. -/
def memA : Mem.MemProduct := ⟨some 1, some "Apple", some 10⟩

/-- In-memory fixture product with id 2. -/
def memB : Mem.MemProduct := ⟨some 2, some "Orange", some 20⟩

/-- In-memory fixture product with the SAME id as memA but different fields,
used to exercise the duplicate-id behavior of the in-memory POST handler. -/
def memA2 : Mem.MemProduct := ⟨some 1, some "Apple2", some 999⟩

/-- In-memory fixture whose id rank (first) differs from its price rank
(last): id 1, price 50. -/
def mm1 : Mem.MemProduct := ⟨some 1, some "Kiwi", some 50⟩

/-- In-memory fixture with id 2 and the smallest price 10, see mm1. -/
def mm2 : Mem.MemProduct := ⟨some 2, some "Mango", some 10⟩

/-- In-memory fixture with id 3 and the middle price 30, see mm1. -/
def mm3 : Mem.MemProduct := ⟨some 3, some "Plum", some 30⟩

/-- The orderBy comparison is transitive for every field and direction. -/
theorem sortLe_trans (f : SortField) (d : SortDir) :
    ∀ a b c : DbDoc, sortLe f d a b → sortLe f d b c → sortLe f d a c := by
  intro a b c hab hbc
  cases f <;> cases d <;>
    simp only [sortLe, decide_eq_true_eq] at hab hbc ⊢ <;>
    first
      | exact le_trans hab hbc
      | exact le_trans hbc hab

/-- The orderBy comparison is total for every field and direction. -/
theorem sortLe_total (f : SortField) (d : SortDir) :
    ∀ a b : DbDoc, sortLe f d a b || sortLe f d b a := by
  intro a b
  cases f <;> cases d <;>
    simp only [sortLe, Bool.or_eq_true, decide_eq_true_eq] <;>
    exact le_total _ _

/-- Sorting does not change the number of documents. -/
theorem orderBy_length (f : SortField) (d : SortDir) (store : List DbDoc) :
    (orderBy f d store).length = store.length := by
  simp [orderBy]

/-- The result of orderBy is sorted under the requested comparison. -/
theorem orderBy_sorted (f : SortField) (d : SortDir) (store : List DbDoc) :
    (orderBy f d store).Pairwise (fun a b => sortLe f d a b) :=
  List.sorted_mergeSort (sortLe_trans f d) (sortLe_total f d) store

/-- Sorting a non-empty store yields a non-empty list. -/
theorem orderBy_ne_nil (f : SortField) (d : SortDir) (store : List DbDoc)
    (h : store ≠ []) : orderBy f d store ≠ [] := by
  intro hnil
  apply h
  have := orderBy_length f d store
  rw [hnil] at this
  exact List.length_eq_zero.mp this.symm

/-- C2: the paginated list endpoint of part_000 computes the offset as
(pageIndex - 1) * pageSize, answers with the total count and the echoed page
parameters, returns the page of the store ordered by the requested sortField
and direction, and for every pageIndex and pageSize at least 1 the returned
products list has length min pageSize (totalCount - offset) when the offset
is below the total count and is empty otherwise. -/
theorem c2_list_pagination (store : List DbDoc) (pageIndex pageSize : Nat)
    (f : SortField) (d : SortDir) (h1 : 1 ≤ pageIndex) (h2 : 1 ≤ pageSize) :
    DbV2.getProducts store pageIndex pageSize f d =
      .okPage store.length pageIndex pageSize
        (((orderBy f d store).drop ((pageIndex - 1) * pageSize)).take pageSize) ∧
    (((orderBy f d store).drop ((pageIndex - 1) * pageSize)).take pageSize).Pairwise
      (fun a b => sortLe f d a b) ∧
    (((orderBy f d store).drop ((pageIndex - 1) * pageSize)).take pageSize).length =
      (if (pageIndex - 1) * pageSize < store.length
       then min pageSize (store.length - (pageIndex - 1) * pageSize)
       else 0) := by
  refine ⟨rfl, ?_, ?_⟩
  · exact List.Pairwise.sublist
      ((List.take_sublist _ _).trans (List.drop_sublist _ _))
      (orderBy_sorted f d store)
  · rw [List.length_take, List.length_drop, orderBy_length]
    split <;> omega

/-- C2 witness: instantiation at a three-document store, page 2 of size 1,
ordered by price ascending. -/
theorem c2_list_pagination_witness :
    (1 ≤ 2) ∧ (1 ≤ 1) ∧
    (DbV2.getProducts [docA, docB, docC] 2 1 .price .asc =
        .okPage [docA, docB, docC].length 2 1
          (((orderBy .price .asc [docA, docB, docC]).drop ((2 - 1) * 1)).take 1) ∧
      (((orderBy .price .asc [docA, docB, docC]).drop ((2 - 1) * 1)).take 1).Pairwise
        (fun a b => sortLe .price .asc a b) ∧
      (((orderBy .price .asc [docA, docB, docC]).drop ((2 - 1) * 1)).take 1).length =
        (if (2 - 1) * 1 < [docA, docB, docC].length
         then min 1 ([docA, docB, docC].length - (2 - 1) * 1)
         else 0)) :=
  ⟨by omega, by omega,
    c2_list_pagination [docA, docB, docC] 2 1 .price .asc (by omega) (by omega)⟩

/-- C1 counterexample: two of the cited median handlers contradict the
claim.  On a two-document collection the src/server.js endpoint responds
with the SINGLE document at index 0 of the price-ascending ordering, not
with the ordered pair of the two middle documents the claim requires on
every even size.  And the in-memory handler does not answer from the
price-ascending ordering at all: on the three-product array mm1, mm2, mm3,
whose unique price-ascending ordering is mm2, mm3, mm1 — strictly sorted by
price and a permutation of the array — the claim demands the middle element
mm3 of that ordering, but the handler responds with mm2 (the product with
the smallest price), because it sorts by the id field instead. -/
theorem c1_counterexample :
    DbV1.getMedian [docA, docB] = Db.ReadResponse.ok docA ∧
    DbV1.getMedian [docA, docB] ≠ Db.ReadResponse.okPair docA docB ∧
    ([mm2, mm3, mm1] : List Mem.MemProduct).Perm [mm1, mm2, mm3] ∧
    ([mm2, mm3, mm1] : List Mem.MemProduct).Pairwise
      (fun a b => Mem.jsLt a.price b.price) ∧
    [mm2, mm3, mm1].getD ([mm2, mm3, mm1].length / 2) Mem.dummyProduct = mm3 ∧
    (Mem.getMedianProduct [mm1, mm2, mm3]).1 =
      Mem.Outcome.responded (.ok mm2) ∧
    mm2 ≠ mm3 := by
  have hsort : orderBy .price .asc [docA, docB] = [docA, docB] :=
    List.mergeSort_of_sorted (by constructor <;> simp [sortLe, docA, docB])
  have hid : ([mm1, mm2, mm3] : List Mem.MemProduct).mergeSort Mem.idSortLe =
      [mm1, mm2, mm3] :=
    List.mergeSort_of_sorted (by decide)
  refine ⟨?_, ?_, ?_, ?_, ?_, ?_, ?_⟩
  · simp [DbV1.getMedian, hsort]
  · simp [DbV1.getMedian, hsort]
  · decide
  · decide
  · decide
  · simp [Mem.getMedianProduct, hid]
  · decide

/-- C1 amended: the median endpoints answer from the ordering their variant
actually builds.  Both Firestore-backed endpoints fetch the collection
ordered by price ascending; on an odd size n both return the single element
at index n / 2 of that ordering; on an even size n the part_000 variant
returns the ordered pair of the elements at indices n / 2 - 1 and n / 2,
while the src/server.js variant returns the SINGLE element at index
n / 2 - 1.  The in-memory endpoint sorts a copy of the array by the id
field, NOT by price, and answers from that id-ascending ordering (a
permutation of the array): the element at index n / 2 for odd n and the
pair at indices n / 2 - 1 and n / 2 for even n. -/
theorem c1_median_variants (store : List DbDoc) (ps : List Mem.MemProduct)
    (hne : store ≠ []) (hpne : ps ≠ []) :
    ((orderBy .price .asc store).length % 2 = 1 →
      DbV2.getMedian store =
        .ok ((orderBy .price .asc store).getD
          ((orderBy .price .asc store).length / 2) dummyDoc) ∧
      DbV1.getMedian store =
        .ok ((orderBy .price .asc store).getD
          ((orderBy .price .asc store).length / 2) dummyDoc)) ∧
    ((orderBy .price .asc store).length % 2 = 0 →
      DbV2.getMedian store =
        .okPair
          ((orderBy .price .asc store).getD
            ((orderBy .price .asc store).length / 2 - 1) dummyDoc)
          ((orderBy .price .asc store).getD
            ((orderBy .price .asc store).length / 2) dummyDoc) ∧
      DbV1.getMedian store =
        .ok ((orderBy .price .asc store).getD
          ((orderBy .price .asc store).length / 2 - 1) dummyDoc)) ∧
    ((ps.mergeSort Mem.idSortLe).length % 2 = 1 →
      (Mem.getMedianProduct ps).1 =
        .responded (.ok ((ps.mergeSort Mem.idSortLe).getD
          ((ps.mergeSort Mem.idSortLe).length / 2) Mem.dummyProduct))) ∧
    ((ps.mergeSort Mem.idSortLe).length % 2 = 0 →
      (Mem.getMedianProduct ps).1 =
        .responded (.okPair
          ((ps.mergeSort Mem.idSortLe).getD
            ((ps.mergeSort Mem.idSortLe).length / 2 - 1) Mem.dummyProduct)
          ((ps.mergeSort Mem.idSortLe).getD
            ((ps.mergeSort Mem.idSortLe).length / 2) Mem.dummyProduct))) ∧
    (ps.mergeSort Mem.idSortLe).Perm ps := by
  have hlen : (orderBy .price .asc store).length ≠ 0 := by
    intro hz
    exact (orderBy_ne_nil .price .asc store hne) (List.length_eq_zero.mp hz)
  have hplen : ps.length ≠ 0 := fun hz => hpne (List.length_eq_zero.mp hz)
  refine ⟨?_, ?_, ?_, ?_, List.mergeSort_perm ps Mem.idSortLe⟩
  · intro hodd
    constructor
    · simp [DbV2.getMedian, hlen, hodd]
    · simp [DbV1.getMedian, hlen, hodd]
  · intro heven
    have hnotodd : ¬ (orderBy .price .asc store).length % 2 = 1 := by omega
    constructor
    · simp [DbV2.getMedian, hlen, hnotodd]
    · simp [DbV1.getMedian, hlen, hnotodd]
  · intro hodd
    rw [List.length_mergeSort] at hodd
    simp [Mem.getMedianProduct, hplen, hodd]
  · intro heven
    rw [List.length_mergeSort] at heven
    have hno : ps.length % 2 ≠ 1 := by omega
    simp [Mem.getMedianProduct, hplen, hno]

/-- C1 witness: instantiation of the amended median law at a non-empty
(three-document, odd-size) Firestore store and a one-product in-memory
array. -/
theorem c1_median_variants_witness :
    [docA, docB, docC] ≠ ([] : List DbDoc) ∧
    [memA] ≠ ([] : List Mem.MemProduct) ∧
    (((orderBy .price .asc [docA, docB, docC]).length % 2 = 1 →
      DbV2.getMedian [docA, docB, docC] =
        .ok ((orderBy .price .asc [docA, docB, docC]).getD
          ((orderBy .price .asc [docA, docB, docC]).length / 2) dummyDoc) ∧
      DbV1.getMedian [docA, docB, docC] =
        .ok ((orderBy .price .asc [docA, docB, docC]).getD
          ((orderBy .price .asc [docA, docB, docC]).length / 2) dummyDoc)) ∧
    ((orderBy .price .asc [docA, docB, docC]).length % 2 = 0 →
      DbV2.getMedian [docA, docB, docC] =
        .okPair
          ((orderBy .price .asc [docA, docB, docC]).getD
            ((orderBy .price .asc [docA, docB, docC]).length / 2 - 1) dummyDoc)
          ((orderBy .price .asc [docA, docB, docC]).getD
            ((orderBy .price .asc [docA, docB, docC]).length / 2) dummyDoc) ∧
      DbV1.getMedian [docA, docB, docC] =
        .ok ((orderBy .price .asc [docA, docB, docC]).getD
          ((orderBy .price .asc [docA, docB, docC]).length / 2 - 1) dummyDoc)) ∧
    (([memA].mergeSort Mem.idSortLe).length % 2 = 1 →
      (Mem.getMedianProduct [memA]).1 =
        .responded (.ok (([memA].mergeSort Mem.idSortLe).getD
          (([memA].mergeSort Mem.idSortLe).length / 2) Mem.dummyProduct))) ∧
    (([memA].mergeSort Mem.idSortLe).length % 2 = 0 →
      (Mem.getMedianProduct [memA]).1 =
        .responded (.okPair
          (([memA].mergeSort Mem.idSortLe).getD
            (([memA].mergeSort Mem.idSortLe).length / 2 - 1) Mem.dummyProduct)
          (([memA].mergeSort Mem.idSortLe).getD
            (([memA].mergeSort Mem.idSortLe).length / 2) Mem.dummyProduct))) ∧
    ([memA].mergeSort Mem.idSortLe).Perm [memA]) :=
  ⟨by simp, by simp, c1_median_variants [docA, docB, docC] [memA] (by simp) (by simp)⟩

/-- C4 counterexample: on the empty collection the in-memory expensivest
handler does not respond 404 with an error payload: the reduce call throws a
TypeError; the in-memory median handler returns without writing any
response. -/
theorem c4_counterexample :
    Mem.getExpensivestProduct [] =
      (.threw "TypeError: Reduce of empty array with no initial value", []) ∧
    Mem.getMedianProduct [] = (.noResponse, []) :=
  ⟨rfl, rfl⟩

/-- C4 amended: in the Firestore-backed variants the expensivest, cheapest
and both median endpoints respond 404 with the error payload "No products
found" exactly on the empty collection, and 200 on every non-empty one; the
in-memory variant instead throws from reduce (expensivest, cheapest) or
writes no response (median) on the empty collection. -/
theorem c4_empty_404 (store : List DbDoc) :
    (store = [] →
      Db.getExpensivest store = .notFound "No products found" ∧
      Db.getCheapest store = .notFound "No products found" ∧
      DbV1.getMedian store = .notFound "No products found" ∧
      DbV2.getMedian store = .notFound "No products found") ∧
    (store ≠ [] →
      Db.status (Db.getExpensivest store) = 200 ∧
      Db.status (Db.getCheapest store) = 200 ∧
      Db.status (DbV1.getMedian store) = 200 ∧
      Db.status (DbV2.getMedian store) = 200) ∧
    Mem.getExpensivestProduct [] =
      (.threw "TypeError: Reduce of empty array with no initial value", []) ∧
    Mem.getCheapestProduct [] =
      (.threw "TypeError: Reduce of empty array with no initial value", []) ∧
    Mem.getMedianProduct [] = (.noResponse, []) := by
  refine ⟨?_, ?_, rfl, rfl, rfl⟩
  · rintro rfl
    refine ⟨?_, ?_, ?_, ?_⟩ <;>
      simp [Db.getExpensivest, Db.getCheapest, DbV1.getMedian, DbV2.getMedian,
        orderBy]
  · intro hne
    have h1 : orderBy .price .desc store ≠ [] := orderBy_ne_nil .price .desc store hne
    have h2 : orderBy .price .asc store ≠ [] := orderBy_ne_nil .price .asc store hne
    obtain ⟨x, xs, hx⟩ := List.exists_cons_of_ne_nil h1
    obtain ⟨y, ys, hy⟩ := List.exists_cons_of_ne_nil h2
    have hlen : (orderBy .price .asc store).length ≠ 0 := by simp [hy]
    refine ⟨?_, ?_, ?_, ?_⟩
    · simp [Db.getExpensivest, hx, Db.status]
    · simp [Db.getCheapest, hy, Db.status]
    · simp only [DbV1.getMedian]
      rw [if_neg hlen]
      split <;> rfl
    · simp only [DbV2.getMedian]
      rw [if_neg hlen]
      split <;> rfl

/-- C4 witness: the amended statement instantiated at the empty store and at
a one-document store. -/
theorem c4_empty_404_witness :
    (Db.getExpensivest [] = .notFound "No products found" ∧
     Db.getCheapest [] = .notFound "No products found" ∧
     DbV1.getMedian [] = .notFound "No products found" ∧
     DbV2.getMedian [] = .notFound "No products found") ∧
    (Db.status (Db.getExpensivest [docA]) = 200 ∧
     Db.status (Db.getCheapest [docA]) = 200 ∧
     Db.status (DbV1.getMedian [docA]) = 200 ∧
     Db.status (DbV2.getMedian [docA]) = 200) :=
  ⟨(c4_empty_404 []).1 rfl, ((c4_empty_404 [docA]).2).1 (by simp)⟩

/-- When the key already exists, dbSet is the in-place replacement map. -/
theorem dbSet_of_mem (store : List (String × PostBody)) (key : String)
    (data : PostBody) (hmem : key ∈ store.map Prod.fst) :
    dbSet store key data =
      store.map (fun e => if e.1 = key then (key, data) else e) := by
  have hany : store.any (fun e => decide (e.1 = key)) = true := by
    simp only [List.any_eq_true, decide_eq_true_eq]
    obtain ⟨e, he, hk⟩ := List.mem_map.mp hmem
    exact ⟨e, he, hk⟩
  simp [dbSet, hany]

/-- Replacement by an existing key keeps the length, leaves exactly the new
pair under the key, and preserves every entry stored under another key. -/
theorem dbSet_replace (store : List (String × PostBody)) (key : String)
    (data : PostBody) (hnodup : (store.map Prod.fst).Nodup)
    (hmem : key ∈ store.map Prod.fst) :
    (dbSet store key data).length = store.length ∧
    (dbSet store key data).filter (fun e => decide (e.1 = key)) = [(key, data)] ∧
    ∀ e ∈ store, e.1 ≠ key → e ∈ dbSet store key data := by
  rw [dbSet_of_mem store key data hmem]
  refine ⟨by simp, ?_, ?_⟩
  · induction store with
    | nil => simp at hmem
    | cons hd tl ih =>
      simp only [List.map_cons, List.nodup_cons] at hnodup
      by_cases hh : hd.1 = key
      · simp only [List.map_cons, if_pos hh, List.filter_cons]
        have hkey : ∀ e ∈ tl, e.1 ≠ key := by
          intro e he heq
          exact hnodup.1 (hh ▸ heq ▸ List.mem_map_of_mem Prod.fst he)
        have htl : tl.map (fun e => if e.1 = key then (key, data) else e) = tl :=
          List.map_congr_left (fun e he => if_neg (hkey e he)) |>.trans tl.map_id
        rw [htl]
        simp only [decide_eq_true_eq, if_pos rfl]
        have : tl.filter (fun e => decide (e.1 = key)) = [] := by
          simp only [List.filter_eq_nil_iff, decide_eq_true_eq]
          exact hkey
        simp [this]
      · have hmem' : key ∈ tl.map Prod.fst := by
          rcases List.mem_cons.mp hmem with h | h
          · exact absurd h.symm hh
          · exact h
        simp only [List.map_cons, if_neg hh, List.filter_cons]
        rw [ih hnodup.2 hmem']
        simp [hh]
  · intro e he hne
    exact List.mem_map.mpr ⟨e, he, by simp [hne]⟩

/-- The pair just written is always a member of the store after dbSet. -/
theorem dbSet_mem_self (store : List (String × PostBody)) (key : String)
    (data : PostBody) : (key, data) ∈ dbSet store key data := by
  by_cases hany : store.any (fun e => decide (e.1 = key)) = true
  · obtain ⟨e, he, hk⟩ := by
      simpa only [List.any_eq_true, decide_eq_true_eq] using hany
    simp only [dbSet, hany, if_true]
    exact List.mem_map.mpr ⟨e, he, by simp [hk]⟩
  · simp [dbSet, hany]

/-- C3 amended: the Firestore-backed POST handlers are an upsert keyed by the
id: for every store with distinct keys, POSTing a valid body whose id already
exists responds 201, does not change the document count, leaves exactly one
document under that key and it holds the posted fields, and preserves every
document stored under another key (both Firestore variants produce the same
store).  The in-memory POST handler, by contrast, is append-only: it pushes
every accepted body onto the array unconditionally, so the count always grows
by one even when the id already exists. -/
theorem c3_upsert_replaces (store : List (String × PostBody)) (body : PostBody)
    (ps : List Mem.MemProduct) (r : Mem.MemProduct) (m : String)
    (hid : body.id.truthy = true) (hname : body.name.truthy = true)
    (hnodup : (store.map Prod.fst).Nodup)
    (hmem : body.id.toStr ∈ store.map Prod.fst)
    (hrm : r.name = some m) (hm : jsTrim m ≠ "") :
    (DbV2.postProducts store body).1 =
      .created body.id body.name body.price ∧
    (DbV2.postProducts store body).2.length = store.length ∧
    (DbV2.postProducts store body).2.filter
      (fun e => decide (e.1 = body.id.toStr)) = [(body.id.toStr, body)] ∧
    (∀ e ∈ store, e.1 ≠ body.id.toStr → e ∈ (DbV2.postProducts store body).2) ∧
    (DbV1.postProducts store body).2 = (DbV2.postProducts store body).2 ∧
    Mem.createProductHandler ps (some r) =
      (.responded (.created r), ps ++ [r]) ∧
    (Mem.createProductHandler ps (some r)).2.length = ps.length + 1 := by
  have hidf : body.id.falsy = false := by simpa [JSVal.truthy] using hid
  have hnamef : body.name.falsy = false := by simpa [JSVal.truthy] using hname
  obtain ⟨hlen, hfilter, hpres⟩ := dbSet_replace store body.id.toStr body hnodup hmem
  have hv2 : DbV2.postProducts store body =
      (.created body.id body.name body.price, dbSet store body.id.toStr body) := by
    simp [DbV2.postProducts, hidf, hnamef]
  have hv1 : DbV1.postProducts store body =
      (.created body.id body.name body.price, dbSet store body.id.toStr body) := by
    simp [DbV1.postProducts, hidf, hnamef]
  have hmemh : Mem.createProductHandler ps (some r) =
      (.responded (.created r), ps ++ [r]) := by
    simp [Mem.createProductHandler, hrm, hm]
  rw [hv1, hv2]
  exact ⟨rfl, hlen, hfilter, hpres, rfl, hmemh, by rw [hmemh]; simp⟩

/-- C3 witness: POSTing id "1" twice with prices 150 and then 999 leaves one
document with the latest fields and the count unchanged in the Firestore
model, while the in-memory handler appends a duplicate-id product. -/
theorem c3_upsert_replaces_witness :
    (appleBody 999).id.truthy = true ∧
    (appleBody 999).name.truthy = true ∧
    ([("1", appleBody 150)].map Prod.fst).Nodup ∧
    (appleBody 999).id.toStr ∈ [("1", appleBody 150)].map Prod.fst ∧
    memA2.name = some "Apple2" ∧
    jsTrim "Apple2" ≠ "" ∧
    ((DbV2.postProducts [("1", appleBody 150)] (appleBody 999)).1 =
        .created (appleBody 999).id (appleBody 999).name (appleBody 999).price ∧
      (DbV2.postProducts [("1", appleBody 150)] (appleBody 999)).2.length =
        [("1", appleBody 150)].length ∧
      (DbV2.postProducts [("1", appleBody 150)] (appleBody 999)).2.filter
        (fun e => decide (e.1 = (appleBody 999).id.toStr)) =
        [((appleBody 999).id.toStr, appleBody 999)] ∧
      (∀ e ∈ [("1", appleBody 150)], e.1 ≠ (appleBody 999).id.toStr →
        e ∈ (DbV2.postProducts [("1", appleBody 150)] (appleBody 999)).2) ∧
      (DbV1.postProducts [("1", appleBody 150)] (appleBody 999)).2 =
        (DbV2.postProducts [("1", appleBody 150)] (appleBody 999)).2 ∧
      Mem.createProductHandler [memA] (some memA2) =
        (.responded (.created memA2), [memA] ++ [memA2]) ∧
      (Mem.createProductHandler [memA] (some memA2)).2.length =
        [memA].length + 1) :=
  ⟨by decide, by decide, by decide, by decide, by decide, by decide,
    c3_upsert_replaces [("1", appleBody 150)] (appleBody 999) [memA] memA2
      "Apple2" (by decide) (by decide) (by decide) (by decide) (by decide)
      (by decide)⟩

/-- C3 counterexample: the in-memory POST handler cited by the claim is not
an upsert: POSTing a product whose id 1 already exists in the array appends a
second product with id 1 — the prior document is not replaced, two documents
now share the id, and the total count increases from 1 to 2. -/
theorem c3_counterexample :
    Mem.createProductHandler [memA] (some memA2) =
      (.responded (.created memA2), [memA, memA2]) ∧
    ([memA, memA2].filter (fun p => decide (p.id = some 1))).length = 2 ∧
    [memA, memA2].length = [memA].length + 1 := by
  decide

/-- C8: the Firestore-backed POST handlers reject any falsy id or name with
400 and leave the store untouched — the number 0 as id and the empty string
as name are falsy — while a non-empty name consisting only of whitespace is
truthy (no trimming happens before the check), so it is accepted and the
document is written to the store. -/
theorem c8_falsy_validation (store : List (String × PostBody)) (body : PostBody)
    (idv price : JSVal) (s : String)
    (hfalsy : body.id.falsy = true ∨ body.name.falsy = true)
    (hidv : idv.truthy = true) (hs : s ≠ "") (hws : jsTrim s = "") :
    DbV2.postProducts store body =
      (.badRequest "id and name are required", store) ∧
    DbV1.postProducts store body = (.badRequest "id and name required", store) ∧
    (JSVal.num 0).falsy = true ∧
    (JSVal.str "").falsy = true ∧
    (DbV2.postProducts store ⟨idv, .str s, price⟩).1 =
      .created idv (.str s) price ∧
    (idv.toStr, (⟨idv, .str s, price⟩ : PostBody)) ∈
      (DbV2.postProducts store ⟨idv, .str s, price⟩).2 := by
  have hbad : (body.id.falsy || body.name.falsy) = true := by
    rcases hfalsy with h | h <;> simp [h]
  have hidf : idv.falsy = false := by simpa [JSVal.truthy] using hidv
  have hnamef : (JSVal.str s).falsy = false := by simp [JSVal.falsy, hs]
  have hv2 : DbV2.postProducts store ⟨idv, .str s, price⟩ =
      (.created idv (.str s) price,
        dbSet store idv.toStr ⟨idv, .str s, price⟩) := by
    simp [DbV2.postProducts, hidf, hnamef]
  refine ⟨?_, ?_, rfl, rfl, ?_, ?_⟩
  · simp [DbV2.postProducts, hbad]
  · simp [DbV1.postProducts, hbad]
  · rw [hv2]
  · rw [hv2]
    exact dbSet_mem_self store idv.toStr ⟨idv, .str s, price⟩

/-- C8 witness: instantiation with id 0 rejected, and a one-space name
accepted and written under key "9". -/
theorem c8_falsy_validation_witness :
    ((PostBody.mk (.num 0) (.str "Pen") (.num 3)).id.falsy = true ∨
      (PostBody.mk (.num 0) (.str "Pen") (.num 3)).name.falsy = true) ∧
    (JSVal.str "9").truthy = true ∧
    (" " : String) ≠ "" ∧
    jsTrim " " = "" ∧
    (DbV2.postProducts [] (PostBody.mk (.num 0) (.str "Pen") (.num 3)) =
        (.badRequest "id and name are required", []) ∧
      DbV1.postProducts [] (PostBody.mk (.num 0) (.str "Pen") (.num 3)) =
        (.badRequest "id and name required", []) ∧
      (JSVal.num 0).falsy = true ∧
      (JSVal.str "").falsy = true ∧
      (DbV2.postProducts [] ⟨.str "9", .str " ", .num 3⟩).1 =
        .created (.str "9") (.str " ") (.num 3) ∧
      ((JSVal.str "9").toStr, (⟨.str "9", .str " ", .num 3⟩ : PostBody)) ∈
        (DbV2.postProducts [] ⟨.str "9", .str " ", .num 3⟩).2) :=
  ⟨Or.inl (by decide), by decide, by decide, by decide,
    c8_falsy_validation [] (PostBody.mk (.num 0) (.str "Pen") (.num 3))
      (.str "9") (.num 3) " " (Or.inl (by decide)) (by decide) (by decide)
      (by decide)⟩

/-- C5 counterexample: a POST body whose name is a single space — missing
under the claim, which demands a name non-empty after trimming — is neither
rejected with 400 nor kept out of the store: the Firestore-backed handler
responds 201 and writes the document. -/
theorem c5_counterexample :
    jsTrim " " = "" ∧
    DbV2.postProducts [] wsBody =
      (.created (.str "p1") (.str " ") (.num 5), [("p1", wsBody)]) := by
  constructor
  · decide
  · simp [DbV2.postProducts, JSVal.falsy, wsBody, dbSet, JSVal.toStr]

/-- C5 amended: the Firestore-backed POST handlers reject a request with a
falsy (in particular missing) id or name with 400 and an error payload and
write nothing, but apply no trimming, so a whitespace-only name is accepted;
the in-memory POST handler responds 400 and writes nothing only for a falsy
body or a present name that trims to the empty string — a MISSING name makes
it throw a TypeError instead of responding 400, and the id is never checked:
a body with any (or no) id and a name that does not trim to empty is pushed
onto the array. -/
theorem c5_validation_amended (store : List (String × PostBody))
    (body : PostBody) (ps : List Mem.MemProduct) (p q r : Mem.MemProduct)
    (n m : String)
    (hfalsy : body.id.falsy = true ∨ body.name.falsy = true)
    (hpn : p.name = some n) (htrim : jsTrim n = "")
    (hq : q.name = none)
    (hrm : r.name = some m) (hm : jsTrim m ≠ "") :
    DbV2.postProducts store body =
      (.badRequest "id and name are required", store) ∧
    DbV1.postProducts store body = (.badRequest "id and name required", store) ∧
    Mem.createProductHandler ps (some p) =
      (.responded (.badRequest "Name is required"), ps) ∧
    Mem.createProductHandler ps (some q) =
      (.threw "TypeError: Cannot read properties of undefined (reading \x27trim\x27)",
        ps) ∧
    Mem.createProductHandler ps (some r) =
      (.responded (.created r), ps ++ [r]) := by
  have hbad : (body.id.falsy || body.name.falsy) = true := by
    rcases hfalsy with h | h <;> simp [h]
  refine ⟨?_, ?_, ?_, ?_, ?_⟩
  · simp [DbV2.postProducts, hbad]
  · simp [DbV1.postProducts, hbad]
  · simp [Mem.createProductHandler, hpn, htrim]
  · simp [Mem.createProductHandler, hq]
  · simp [Mem.createProductHandler, hrm, hm]

/-- C5 witness: a body with no id field is rejected by the Firestore-backed
handlers, while the in-memory handler rejects a one-space name, throws on an
absent name, and accepts a product with no id at all. -/
theorem c5_validation_amended_witness :
    ((PostBody.mk .undef (.str "X") (.num 1)).id.falsy = true ∨
      (PostBody.mk .undef (.str "X") (.num 1)).name.falsy = true) ∧
    (Mem.MemProduct.mk (some 1) (some " ") (some 2)).name = some " " ∧
    jsTrim " " = "" ∧
    (Mem.MemProduct.mk (some 1) none (some 2)).name = none ∧
    (Mem.MemProduct.mk none (some "Z") (some 2)).name = some "Z" ∧
    jsTrim "Z" ≠ "" ∧
    (DbV2.postProducts [] (PostBody.mk .undef (.str "X") (.num 1)) =
        (.badRequest "id and name are required", []) ∧
      DbV1.postProducts [] (PostBody.mk .undef (.str "X") (.num 1)) =
        (.badRequest "id and name required", []) ∧
      Mem.createProductHandler []
          (some (Mem.MemProduct.mk (some 1) (some " ") (some 2))) =
        (.responded (.badRequest "Name is required"), []) ∧
      Mem.createProductHandler []
          (some (Mem.MemProduct.mk (some 1) none (some 2))) =
        (.threw "TypeError: Cannot read properties of undefined (reading \x27trim\x27)",
          []) ∧
      Mem.createProductHandler []
          (some (Mem.MemProduct.mk none (some "Z") (some 2))) =
        (.responded (.created (Mem.MemProduct.mk none (some "Z") (some 2))),
          [] ++ [Mem.MemProduct.mk none (some "Z") (some 2)])) :=
  ⟨Or.inl (by decide), by decide, by decide, by decide, by decide, by decide,
    c5_validation_amended [] (PostBody.mk .undef (.str "X") (.num 1)) []
      (Mem.MemProduct.mk (some 1) (some " ") (some 2))
      (Mem.MemProduct.mk (some 1) none (some 2))
      (Mem.MemProduct.mk none (some "Z") (some 2)) " " "Z"
      (Or.inl (by decide)) (by decide) (by decide) (by decide) (by decide)
      (by decide)⟩

/-- With distinct keys and the key present, filtering the key away removes
exactly one document. -/
theorem filter_ne_key_length (store : List DbDoc) (key : String)
    (hnodup : (store.map DbDoc.key).Nodup) (hmem : key ∈ store.map DbDoc.key) :
    (store.filter (fun d => !decide (d.key = key))).length + 1 = store.length := by
  induction store with
  | nil => simp at hmem
  | cons hd tl ih =>
    simp only [List.map_cons, List.nodup_cons] at hnodup
    by_cases hh : hd.key = key
    · have hkeys : ∀ d ∈ tl, d.key ≠ key := by
        intro d hd2 heq
        exact hnodup.1 (hh ▸ heq ▸ List.mem_map_of_mem DbDoc.key hd2)
      have htl : tl.filter (fun d => !decide (d.key = key)) = tl := by
        apply List.filter_eq_self.mpr
        intro d hd2
        simpa using hkeys d hd2
      simp [List.filter_cons, hh, htl]
    · have hmem' : key ∈ tl.map DbDoc.key := by
        rcases List.mem_cons.mp hmem with h | h
        · exact absurd h.symm hh
        · exact h
      have hrec := ih hnodup.2 hmem'
      simp only [List.filter_cons, hh, decide_False, Bool.not_false, if_true,
        List.length_cons]
      omega

/-- Specification of the findIndex-then-splice pattern of the in-memory
delete handler under distinct id fields: the first matching index is found
and erasing it removes exactly the matching product. -/
theorem findIdx_eraseIdx_spec (ps : List Mem.MemProduct) (i : Int)
    (hids : (ps.map Mem.MemProduct.id).Nodup)
    (hmem : ∃ p ∈ ps, p.id = some i) :
    ∃ j, ps.findIdx? (fun u => decide (u.id = some i)) = some j ∧
      (ps.eraseIdx j).length + 1 = ps.length ∧
      (∀ p ∈ ps, p.id ≠ some i → p ∈ ps.eraseIdx j) ∧
      (∀ p ∈ ps.eraseIdx j, p.id ≠ some i ∧ p ∈ ps) := by
  induction ps with
  | nil => simp at hmem
  | cons hd tl ih =>
    simp only [List.map_cons, List.nodup_cons] at hids
    by_cases hh : hd.id = some i
    · refine ⟨0, ?_, ?_, ?_, ?_⟩
      · simp [List.findIdx?_cons, hh]
      · simp
      · intro p hp hpne
        rcases List.mem_cons.mp hp with rfl | hptl
        · exact absurd hh hpne
        · simpa using hptl
      · intro p hp
        simp only [List.eraseIdx_cons_zero] at hp
        have hne : p.id ≠ some i := by
          intro hpe
          exact hids.1 (hh ▸ hpe ▸ List.mem_map_of_mem Mem.MemProduct.id hp)
        exact ⟨hne, List.mem_cons_of_mem hd hp⟩
    · have hmem' : ∃ p ∈ tl, p.id = some i := by
        rcases hmem with ⟨p, hp, hpe⟩
        rcases List.mem_cons.mp hp with rfl | h
        · exact absurd hpe hh
        · exact ⟨p, h, hpe⟩
      obtain ⟨j, hj, hlen, hpres, hrem⟩ := ih hids.2 hmem'
      refine ⟨j + 1, ?_, ?_, ?_, ?_⟩
      · simp [List.findIdx?_cons, hh, hj]
      · simp only [List.eraseIdx_cons_succ, List.length_cons]
        omega
      · intro p hp hpne
        rcases List.mem_cons.mp hp with rfl | hptl
        · simp [List.eraseIdx_cons_succ]
        · simp only [List.eraseIdx_cons_succ]
          exact List.mem_cons_of_mem hd (hpres p hptl hpne)
      · intro p hp
        simp only [List.eraseIdx_cons_succ] at hp
        rcases List.mem_cons.mp hp with rfl | hptl
        · exact ⟨hh, List.mem_cons_self _ _⟩
        · obtain ⟨h1, h2⟩ := hrem p hptl
          exact ⟨h1, List.mem_cons_of_mem hd h2⟩

/-- C6: both delete-by-id handlers check existence before deleting.  For an
id absent from the store they respond 404 with an error payload and leave the
store unchanged; for an id present (keys respectively id fields being
distinct) they respond 200 with the confirmation message and remove exactly
the matching document, preserving all others. -/
theorem c6_delete_by_id (store : List DbDoc) (key : String)
    (ps : List Mem.MemProduct) (i : Int)
    (hkeys : (store.map DbDoc.key).Nodup)
    (hids : (ps.map Mem.MemProduct.id).Nodup) :
    (key ∉ store.map DbDoc.key →
      Db.deleteById store key = (.notFound "Product not found", store)) ∧
    (key ∈ store.map DbDoc.key →
      (Db.deleteById store key).1 = .okMessage "Product deleted" ∧
      (Db.deleteById store key).2.length + 1 = store.length ∧
      (∀ d ∈ store, d.key ≠ key → d ∈ (Db.deleteById store key).2) ∧
      (∀ d ∈ (Db.deleteById store key).2, d.key ≠ key ∧ d ∈ store)) ∧
    ((∀ p ∈ ps, p.id ≠ some i) →
      Mem.deleteProductByIdHandler ps i =
        (.responded (.notFoundErr "Product not found"), ps)) ∧
    ((∃ p ∈ ps, p.id = some i) →
      (Mem.deleteProductByIdHandler ps i).1 =
        .responded (.okMessage
          ("Product with id: \x27" ++ toString i ++ "\x27 deleted")) ∧
      (Mem.deleteProductByIdHandler ps i).2.length + 1 = ps.length ∧
      (∀ p ∈ ps, p.id ≠ some i → p ∈ (Mem.deleteProductByIdHandler ps i).2) ∧
      (∀ p ∈ (Mem.deleteProductByIdHandler ps i).2,
        p.id ≠ some i ∧ p ∈ ps)) := by
  refine ⟨?_, ?_, ?_, ?_⟩
  · intro habs
    have hany : store.any (fun d => decide (d.key = key)) = false := by
      simp only [List.any_eq_false, decide_eq_true_eq]
      intro d hd2 heq
      exact habs (heq ▸ List.mem_map_of_mem DbDoc.key hd2)
    simp [Db.deleteById, hany]
  · intro hmem
    have hany : store.any (fun d => decide (d.key = key)) = true := by
      simp only [List.any_eq_true, decide_eq_true_eq]
      obtain ⟨d, hd2, hk⟩ := List.mem_map.mp hmem
      exact ⟨d, hd2, hk⟩
    have h2 : Db.deleteById store key =
        (.okMessage "Product deleted",
          store.filter (fun d => !decide (d.key = key))) := by
      simp [Db.deleteById, hany]
    rw [h2]
    refine ⟨rfl, filter_ne_key_length store key hkeys hmem, ?_, ?_⟩
    · intro d hd2 hne
      exact List.mem_filter.mpr ⟨hd2, by simpa using hne⟩
    · intro d hd2
      obtain ⟨h3, h4⟩ := List.mem_filter.mp hd2
      exact ⟨by simpa using h4, h3⟩
  · intro habs
    have hfind : ps.findIdx? (fun u => decide (u.id = some i)) = none := by
      simp only [List.findIdx?_eq_none_iff, decide_eq_false_iff_not]
      exact habs
    simp [Mem.deleteProductByIdHandler, hfind]
  · intro hmem
    obtain ⟨j, hj, hlen, hpres, hrem⟩ := findIdx_eraseIdx_spec ps i hids hmem
    have h2 : Mem.deleteProductByIdHandler ps i =
        (.responded (.okMessage
          ("Product with id: \x27" ++ toString i ++ "\x27 deleted")),
          ps.eraseIdx j) := by
      simp [Mem.deleteProductByIdHandler, hj]
    rw [h2]
    exact ⟨rfl, hlen, hpres, hrem⟩

/-- C6 witness: deleting key "b" from a two-document store and id 2 from a
two-product array. -/
theorem c6_delete_by_id_witness :
    ([docA, docB].map DbDoc.key).Nodup ∧
    ([memA, memB].map Mem.MemProduct.id).Nodup ∧
    (("b" ∉ [docA, docB].map DbDoc.key →
      Db.deleteById [docA, docB] "b" =
        (.notFound "Product not found", [docA, docB])) ∧
    ("b" ∈ [docA, docB].map DbDoc.key →
      (Db.deleteById [docA, docB] "b").1 = .okMessage "Product deleted" ∧
      (Db.deleteById [docA, docB] "b").2.length + 1 = [docA, docB].length ∧
      (∀ d ∈ [docA, docB], d.key ≠ "b" → d ∈ (Db.deleteById [docA, docB] "b").2) ∧
      (∀ d ∈ (Db.deleteById [docA, docB] "b").2, d.key ≠ "b" ∧ d ∈ [docA, docB])) ∧
    ((∀ p ∈ [memA, memB], p.id ≠ some 2) →
      Mem.deleteProductByIdHandler [memA, memB] 2 =
        (.responded (.notFoundErr "Product not found"), [memA, memB])) ∧
    ((∃ p ∈ [memA, memB], p.id = some 2) →
      (Mem.deleteProductByIdHandler [memA, memB] 2).1 =
        .responded (.okMessage
          ("Product with id: \x27" ++ toString (2 : Int) ++ "\x27 deleted")) ∧
      (Mem.deleteProductByIdHandler [memA, memB] 2).2.length + 1 =
        [memA, memB].length ∧
      (∀ p ∈ [memA, memB], p.id ≠ some 2 →
        p ∈ (Mem.deleteProductByIdHandler [memA, memB] 2).2) ∧
      (∀ p ∈ (Mem.deleteProductByIdHandler [memA, memB] 2).2,
        p.id ≠ some 2 ∧ p ∈ [memA, memB]))) :=
  ⟨by decide, by decide,
    c6_delete_by_id [docA, docB] "b" [memA, memB] 2 (by decide) (by decide)⟩

/-- C7: the delete-all endpoints of both backends always respond 200 with the
confirmation message, and immediately afterwards the collection is empty: the
count endpoint reports zero. -/
theorem c7_delete_all (store : List DbDoc) (ps : List Mem.MemProduct) :
    Db.deleteAll store = (.okMessage "All products deleted", []) ∧
    Db.status (Db.deleteAll store).1 = 200 ∧
    Db.getCount (Db.deleteAll store).2 = .okCount 0 ∧
    Mem.deleteAllProducts ps =
      (.responded (.okMessage "All products deleted"), []) ∧
    Mem.handleGet .countAll (Mem.deleteAllProducts ps).2 =
      (.responded (.okCount 0), []) :=
  ⟨rfl, rfl, rfl, rfl, rfl⟩

/-- C9: in the in-memory variant the not-found branch of the expensivest and
cheapest handlers is unreachable: on every non-empty array the reduce yields
a product object, which is truthy, so the success branch responds with it;
on the empty array the reduce throws a TypeError before either branch. -/
theorem c9_reduce_unreachable_404 (ps : List Mem.MemProduct) (hne : ps ≠ []) :
    (∃ p, Mem.getExpensivestProduct ps = (.responded (.ok p), ps)) ∧
    (∃ p, Mem.getCheapestProduct ps = (.responded (.ok p), ps)) ∧
    (∀ m, (Mem.getExpensivestProduct ps).1 ≠ .responded (.notFoundMsg m)) ∧
    (∀ m, (Mem.getCheapestProduct ps).1 ≠ .responded (.notFoundMsg m)) ∧
    Mem.getExpensivestProduct [] =
      (.threw "TypeError: Reduce of empty array with no initial value", []) ∧
    Mem.getCheapestProduct [] =
      (.threw "TypeError: Reduce of empty array with no initial value", []) := by
  obtain ⟨hd, tl, rfl⟩ := List.exists_cons_of_ne_nil hne
  refine ⟨⟨_, rfl⟩, ⟨_, rfl⟩, ?_, ?_, rfl, rfl⟩
  · intro m h
    simp [Mem.getExpensivestProduct, Mem.jsReduce, Mem.objTruthy] at h
  · intro m h
    simp [Mem.getCheapestProduct, Mem.jsReduce, Mem.objTruthy] at h

/-- C9 witness: instantiation at a two-product array. -/
theorem c9_reduce_unreachable_404_witness :
    [memA, memB] ≠ ([] : List Mem.MemProduct) ∧
    ((∃ p, Mem.getExpensivestProduct [memA, memB] =
        (.responded (.ok p), [memA, memB])) ∧
    (∃ p, Mem.getCheapestProduct [memA, memB] =
        (.responded (.ok p), [memA, memB])) ∧
    (∀ m, (Mem.getExpensivestProduct [memA, memB]).1 ≠
        .responded (.notFoundMsg m)) ∧
    (∀ m, (Mem.getCheapestProduct [memA, memB]).1 ≠
        .responded (.notFoundMsg m)) ∧
    Mem.getExpensivestProduct [] =
      (.threw "TypeError: Reduce of empty array with no initial value", []) ∧
    Mem.getCheapestProduct [] =
      (.threw "TypeError: Reduce of empty array with no initial value", [])) :=
  ⟨by simp, c9_reduce_unreachable_404 [memA, memB] (by simp)⟩

/-- C10: every GET route of both backends is read-only: the product
collection after handling any GET request is the collection it started
with. -/
theorem c10_get_read_only (r : DbGet) (store : List DbDoc)
    (m : Mem.MemGet) (ps : List Mem.MemProduct) :
    (Db.handleGet r store).2 = store ∧ (Mem.handleGet m ps).2 = ps := by
  constructor
  · cases r <;> rfl
  · cases m with
    | listAll => rfl
    | byId i =>
      simp only [Mem.handleGet, Mem.getProductByIdHandler]
      split <;> rfl
    | countAll => rfl
    | expensivest => cases ps <;> rfl
    | cheapest => cases ps <;> rfl
    | median =>
      cases ps with
      | nil => rfl
      | cons hd tl =>
        simp only [Mem.handleGet, Mem.getMedianProduct]
        split
        · next h => simp at h
        · split <;> rfl
